import Mathlib

/-!
# Verification of the bpftui navigation and interaction state machine

Shallow embedding of `internal/tui` of the bpftui repository (Go).
Each definition mirrors one Go function or type; the theorems at the end
settle the specification claims against these definitions.

Modelling conventions:
* Go `uint32` identifiers are modelled as `Nat` (no arithmetic is performed
  on them, only equality tests and map lookups).
* Go `[]byte` is modelled as `List Nat` with side conditions `< 256` where
  byte range matters.
* Go `error` values are modelled by the inductive `GoError`; `nil` errors
  are `Option.none`.
* lipgloss style `Render` calls only colorize text; they are modelled as
  the identity on the rendered string.
* The bubbles `list.Model` and `viewport.Model` widgets are external
  dependencies (not part of this repository); `BList` models the slice of
  their behaviour the embedded code observes: the item collection, the
  cursor index, and the filter state.  Viewport scrolling state is pure
  rendering-surface state and is not modelled.
-/

namespace BpfTui

/-- Go `error` values reaching the TUI: `PermissionError` (services.go),
whose `Err` field either wraps an inner error (`permissionError`) or is
`nil` (`permissionErrorNil`), or an ordinary error with a message
(`errors.New`). -/
inductive GoError where
  | permissionError (inner : GoError)
  | permissionErrorNil
  | simpleError (msg : String)
  deriving DecidableEq, Repr

/-- `IsPermissionError` (services.go): `errors.As` against `*PermissionError`.
Only `PermissionError` participates in wrapping, so matching the outermost
constructor coincides with `errors.As` unwrapping. -/
def IsPermissionError : GoError → Bool
  | .permissionError _ => true
  | .permissionErrorNil => true
  | .simpleError _ => false

/-- The `Error()` string of a `GoError` (services.go). -/
def GoError.message : GoError → String
  | .permissionError e => "insufficient permissions: " ++ e.message
  | .permissionErrorNil => "insufficient permissions"
  | .simpleError m => m

/-- `MapEntry` (services.go): a key/value pair of opaque byte sequences. -/
structure MapEntry where
  key : List Nat
  value : List Nat
  deriving DecidableEq, Repr

/-- `ProgramInfo` (services.go). -/
structure ProgramInfo where
  id : Nat
  typ : String
  name : String
  tag : String
  gpl : Bool
  loadedAt : String
  uid : Nat
  bytesXlated : Nat
  bytesJIT : Nat
  memLock : Nat
  mapIDs : List Nat
  deriving DecidableEq, Repr

/-- `MapInfo` (services.go). -/
structure MapInfo where
  id : Nat
  typ : String
  name : String
  keySize : Nat
  valueSize : Nat
  maxEntries : Nat
  flags : Nat
  memLock : Nat
  loadedAt : String
  uid : Nat
  deriving DecidableEq, Repr

/-- `ProgService` (services.go): a data-access collaborator.  Each call is
synchronous and deterministic for a given service value, so the service is
modelled by the results its calls return. -/
structure ProgService where
  list : Except GoError (List ProgramInfo)
  get : Nat → Except GoError ProgramInfo

/-- `MapsService` (services.go). -/
structure MapsService where
  list : Except GoError (List MapInfo)
  get : Nat → Except GoError MapInfo
  dump : Nat → Except GoError (List MapEntry)

/-! ## Hex rendering (mapdump.go `formatHex`) -/

/-- One lowercase hex digit, as produced by Go `fmt.Sprintf` with the
`%02x` verb (digits `0`-`9` then `a`-`f`). -/
def hexDigit (n : Nat) : Char :=
  if n < 10 then Char.ofNat (48 + n) else Char.ofNat (87 + n)

/-- Go `fmt.Sprintf` of one byte with the `%02x` verb: exactly two hex
digits for `b < 256`. -/
def byteHex (b : Nat) : String :=
  String.mk [hexDigit (b / 16), hexDigit (b % 16)]

/-- Go `strings.Join(elems, sep)`. -/
def stringsJoin (elems : List String) (sep : String) : String :=
  match elems with
  | [] => ""
  | [e] => e
  | e :: rest => e ++ sep ++ stringsJoin rest sep

/-- `formatHex` (mapdump.go): space-separated two-digit hex bytes; the
zero-length sequence renders as the literal empty-marker token. -/
def formatHex (data : List Nat) : String :=
  if data.length = 0 then "(empty)"
  else stringsJoin (data.map byteHex) (" ")

/-- Value of one hex digit character, if it is one (decoder used to state
the round-trip property; not part of the source program). -/
def hexVal (c : Char) : Option Nat :=
  if 48 ≤ c.toNat ∧ c.toNat ≤ 57 then some (c.toNat - 48)
  else if 97 ≤ c.toNat ∧ c.toNat ≤ 102 then some (c.toNat - 87)
  else none

/-- Decoder for the `formatHex` output format: repeatedly reads exactly two
hex digits per byte, separated by a single space. -/
def decodeHexChars : List Char → Option (List Nat)
  | [c1, c2] =>
      match hexVal c1, hexVal c2 with
      | some h, some l => some [16 * h + l]
      | _, _ => none
  | c1 :: c2 :: c3 :: rest =>
      if c3 = ' ' then
        match hexVal c1, hexVal c2, decodeHexChars rest with
        | some h, some l, some tail => some ((16 * h + l) :: tail)
        | _, _, _ => none
      else none
  | _ => none

/-- Decoder on strings. -/
def decodeHex (s : String) : Option (List Nat) :=
  decodeHexChars s.data

/-! ## View identifiers, keys and messages -/

/-- `ViewState` (tui.go): the enumerated view identifier. -/
inductive ViewState where
  | ViewMenu
  | ViewProgList
  | ViewProgDetail
  | ViewMapList
  | ViewMapDetail
  | ViewMapDump
  deriving DecidableEq, Repr

export ViewState (ViewMenu ViewProgList ViewProgDetail ViewMapList ViewMapDetail ViewMapDump)

/-- Modelled from the spec: the key bindings of `keys.go`, which is not
part of the provided sources (only `keys_test.go` and callers are).  The
tests pin Quit = q or ctrl+c, Back = esc or backspace, Help = ?, Search = /,
Up = up or k, Down = down or j, Enter = enter; each binding is modelled as
one semantic key constructor, and any other keystroke (including the
ordinary characters typed into a filter) as `char` or `other`. -/
inductive Key where
  | quit
  | help
  | back
  | enter
  | up
  | down
  | search
  | char (c : Char)
  | other
  deriving DecidableEq, Repr

/-- The bubbletea messages the root `Update` distinguishes: key events,
window resizes, and everything else (e.g. filter-match messages). -/
inductive Msg where
  | key (k : Key)
  | resize (w h : Nat)
  | other
  deriving DecidableEq, Repr

/-- The only command the embedded code itself ever issues is `tea.Quit`;
commands returned by the external widgets (cursor blinking, filter
matching) are internal to the render surface and modelled as `none`. -/
inductive Cmd where
  | quit
  deriving DecidableEq, Repr

/-! ## The external bubbles list widget

`BList` models the behaviour of the third-party `bubbles/list.Model`
widget that the repository code observes: a collection of items, a
clamped cursor, and a filter state (`filtering = true` corresponds to
`FilterState() == list.Filtering`; the accepted-filter and unfiltered
states are indistinguishable to the embedded code, which only calls
`IsFiltering`).  The in-progress filter text only affects which items are
visible, which no claim depends on, so it is not tracked. -/

structure BList (α : Type) where
  items : List α
  index : Nat
  filtering : Bool
  filterEnabled : Bool
  deriving DecidableEq, Repr

/-- One key event processed by the external list widget. -/
def BList.update {α : Type} (l : BList α) (k : Key) : BList α :=
  if l.filtering then
    match k with
    | .back => { l with filtering := false }
    | .enter => { l with filtering := false }
    | _ => l
  else
    match k with
    | .search => if l.filterEnabled then { l with filtering := true } else l
    | .up => if 0 < l.index then { l with index := l.index - 1 } else l
    | .down => if l.index + 1 < l.items.length then { l with index := l.index + 1 } else l
    | _ => l

/-- `SelectedItem` of the external list widget. -/
def BList.selectedItem {α : Type} (l : BList α) : Option α :=
  l.items.get? l.index

/-- `ResetFilter` of the external list widget. -/
def BList.resetFilter {α : Type} (l : BList α) : BList α :=
  { l with filtering := false }

/-- Abstract rendering of the external list widget (one labelled line per
item); the claims only distinguish which branch of the repository's own
`View` functions is taken, never the widget's text. -/
def BList.viewText {α : Type} (l : BList α) (label : α → String) : String :=
  stringsJoin (l.items.map label) ("\n")

/-! ## Menu (menu.go) -/

/-- `newMenuModel` (menu.go): two fixed items targeting the programs and
maps lists; filtering disabled. -/
def newMenuModel : BList ViewState :=
  { items := [ViewProgList, ViewMapList], index := 0,
    filtering := false, filterEnabled := false }

/-- `menuModel.Update` (menu.go): Enter reports the selected item's target
view; every other message is forwarded to the list widget. -/
def menuUpdate (m : BList ViewState) (k : Key) : BList ViewState × Option ViewState :=
  match k with
  | .enter =>
      match m.selectedItem with
      | some t => (m, some t)
      | none => (m.update k, none)
  | _ => (m.update k, none)

/-! ## Programs list (proglist.go) -/

/-- `progListModel` (proglist.go); the wrapped `progItem`s carry exactly
the `ProgramInfo`, so the widget items are modelled as the infos. -/
structure progListModel where
  list : BList ProgramInfo
  programs : List ProgramInfo
  err : Option GoError
  deriving DecidableEq, Repr

/-- `newProgListModel` (proglist.go). -/
def newProgListModel : progListModel :=
  { list := { items := [], index := 0, filtering := false, filterEnabled := true },
    programs := [], err := none }

/-- `SetPrograms` (proglist.go): replaces both the stored slice and the
widget items. -/
def progListModel.SetPrograms (m : progListModel) (programs : List ProgramInfo) : progListModel :=
  { m with programs := programs, list := { m.list with items := programs } }

/-- `SetError` (proglist.go). -/
def progListModel.SetError (m : progListModel) (e : GoError) : progListModel :=
  { m with err := some e }

/-- `IsFiltering` (proglist.go). -/
def progListModel.IsFiltering (m : progListModel) : Bool :=
  m.list.filtering

/-- `ResetFilter` (proglist.go). -/
def progListModel.ResetFilter (m : progListModel) : progListModel :=
  { m with list := m.list.resetFilter }

/-- `progListModel.Update` (proglist.go): while filtering every key goes to
the widget; otherwise Enter reports the selected program and all other
keys go to the widget. -/
def progListModel.Update (m : progListModel) (k : Key) :
    progListModel × Option ProgramInfo :=
  if m.list.filtering then
    ({ m with list := m.list.update k }, none)
  else
    match k with
    | .enter =>
        match m.list.selectedItem with
        | some info => (m, some info)
        | none => ({ m with list := m.list.update k }, none)
    | _ => ({ m with list := m.list.update k }, none)

/-- `progListModel.View` (proglist.go): empty-state message when there are
no programs and no error; inline error otherwise; else the widget. -/
def progListModel.View (m : progListModel) : String :=
  if m.programs.length = 0 ∧ m.err = none then
    "BPF Programs" ++ "\n\n" ++ "No BPF programs loaded"
  else
    match m.err with
    | some e => "BPF Programs" ++ "\n\n" ++ "Error: " ++ e.message
    | none => m.list.viewText (fun p => p.name)

/-! ## Maps list (maplist.go) -/

/-- `mapListModel` (maplist.go). -/
structure mapListModel where
  list : BList MapInfo
  maps : List MapInfo
  err : Option GoError
  deriving DecidableEq, Repr

/-- `newMapListModel` (maplist.go). -/
def newMapListModel : mapListModel :=
  { list := { items := [], index := 0, filtering := false, filterEnabled := true },
    maps := [], err := none }

/-- `SetMaps` (maplist.go). -/
def mapListModel.SetMaps (m : mapListModel) (maps : List MapInfo) : mapListModel :=
  { m with maps := maps, list := { m.list with items := maps } }

/-- `SetError` (maplist.go). -/
def mapListModel.SetError (m : mapListModel) (e : GoError) : mapListModel :=
  { m with err := some e }

/-- `IsFiltering` (maplist.go). -/
def mapListModel.IsFiltering (m : mapListModel) : Bool :=
  m.list.filtering

/-- `ResetFilter` (maplist.go). -/
def mapListModel.ResetFilter (m : mapListModel) : mapListModel :=
  { m with list := m.list.resetFilter }

/-- `mapListModel.Update` (maplist.go). -/
def mapListModel.Update (m : mapListModel) (k : Key) :
    mapListModel × Option MapInfo :=
  if m.list.filtering then
    ({ m with list := m.list.update k }, none)
  else
    match k with
    | .enter =>
        match m.list.selectedItem with
        | some info => (m, some info)
        | none => ({ m with list := m.list.update k }, none)
    | _ => ({ m with list := m.list.update k }, none)

/-- `mapListModel.View` (maplist.go). -/
def mapListModel.View (m : mapListModel) : String :=
  if m.maps.length = 0 ∧ m.err = none then
    "BPF Maps" ++ "\n\n" ++ "No BPF maps loaded"
  else
    match m.err with
    | some e => "BPF Maps" ++ "\n\n" ++ "Error: " ++ e.message
    | none => m.list.viewText (fun i => i.name)

/-! ## Program detail (progdetail.go) -/

/-- `progDetailModel` (progdetail.go): the current record, its associated
map identifiers, and a cursor over them (`-1` means no map selected, as in
the Go source).  The viewport is rendering-surface state and not modelled. -/
structure progDetailModel where
  program : Option ProgramInfo
  mapIDs : List Nat
  cursor : Int
  deriving DecidableEq, Repr

/-- `newProgDetailModel` (progdetail.go). -/
def newProgDetailModel : progDetailModel :=
  { program := none, mapIDs := [], cursor := -1 }

/-- `SetProgram` (progdetail.go): installs the record, resetting the
cursor to 0 when the record has associated maps and to -1 otherwise. -/
def progDetailModel.SetProgram (m : progDetailModel) (prog : Option ProgramInfo) :
    progDetailModel :=
  match prog with
  | some p =>
      if 0 < p.mapIDs.length then
        { m with program := prog, cursor := 0, mapIDs := p.mapIDs }
      else
        { m with program := prog, cursor := -1, mapIDs := [] }
  | none => { m with program := none, cursor := -1, mapIDs := [] }

/-- `progDetailModel.Update` (progdetail.go): clamped up/down over the
associated maps; Enter with a valid cursor reports the selected map
identifier; all other keys scroll the viewport (not modelled). -/
def progDetailModel.Update (m : progDetailModel) (k : Key) :
    progDetailModel × Option Nat :=
  match k with
  | .up =>
      if 0 < m.mapIDs.length ∧ 0 < m.cursor then
        ({ m with cursor := m.cursor - 1 }, none)
      else (m, none)
  | .down =>
      if 0 < m.mapIDs.length ∧ m.cursor < (m.mapIDs.length : Int) - 1 then
        ({ m with cursor := m.cursor + 1 }, none)
      else (m, none)
  | .enter =>
      if 0 < m.mapIDs.length ∧ 0 ≤ m.cursor ∧ m.cursor < (m.mapIDs.length : Int) then
        (m, m.mapIDs.get? m.cursor.toNat)
      else (m, none)
  | _ => (m, none)

/-! ## Map detail (mapdetail.go) -/

/-- `mapDetailModel` (mapdetail.go): the current map record and a cursor
over the single Dump action. -/
structure mapDetailModel where
  mapInfo : Option MapInfo
  cursor : Nat
  deriving DecidableEq, Repr

/-- `newMapDetailModel` (mapdetail.go). -/
def newMapDetailModel : mapDetailModel :=
  { mapInfo := none, cursor := 0 }

/-- `SetMap` (mapdetail.go). -/
def mapDetailModel.SetMap (m : mapDetailModel) (info : Option MapInfo) : mapDetailModel :=
  { m with mapInfo := info, cursor := 0 }

/-- `GetMapInfo` (mapdetail.go). -/
def mapDetailModel.GetMapInfo (m : mapDetailModel) : Option MapInfo :=
  m.mapInfo

/-- `GetMapID` (mapdetail.go): the displayed map's identifier, or 0. -/
def mapDetailModel.GetMapID (m : mapDetailModel) : Nat :=
  match m.mapInfo with
  | some info => info.id
  | none => 0

/-- `mapDetailModel.Update` (mapdetail.go): Enter with a map present and
the Dump action selected reports that Dump was chosen; up/down are
currently no-ops. -/
def mapDetailModel.Update (m : mapDetailModel) (k : Key) : mapDetailModel × Bool :=
  match k with
  | .up => (m, false)
  | .down => (m, false)
  | .enter =>
      if m.mapInfo ≠ none ∧ m.cursor = 0 then (m, true) else (m, false)
  | _ => (m, false)

/-! ## Map dump (mapdump.go) -/

/-- `mapDumpModel` (mapdump.go). -/
structure mapDumpModel where
  mapID : Nat
  mapName : String
  entries : List MapEntry
  loading : Bool
  err : Option GoError
  deriving DecidableEq, Repr

/-- `newMapDumpModel` (mapdump.go). -/
def newMapDumpModel : mapDumpModel :=
  { mapID := 0, mapName := "", entries := [], loading := false, err := none }

/-- `SetMapDump` (mapdump.go): installs entries and clears loading/error. -/
def mapDumpModel.SetMapDump (m : mapDumpModel) (mapID : Nat) (mapName : String)
    (entries : List MapEntry) : mapDumpModel :=
  { m with mapID := mapID, mapName := mapName, entries := entries,
           loading := false, err := none }

/-- `SetError` (mapdump.go): installs the error and clears loading. -/
def mapDumpModel.SetError (m : mapDumpModel) (e : GoError) : mapDumpModel :=
  { m with err := some e, loading := false }

/-- `SetLoading` (mapdump.go). -/
def mapDumpModel.SetLoading (m : mapDumpModel) (loading : Bool) : mapDumpModel :=
  { m with loading := loading }

/-- The two lines one entry contributes to the dump rendering. -/
def entryLines (e : MapEntry) : String :=
  "Key:   " ++ formatHex e.key ++ "\n" ++ "Value: " ++ formatHex e.value ++ "\n"

/-- The indexed rendering loop of `renderContent` (mapdump.go): a
separator line follows every entry except the last. -/
def renderEntriesAux (total : Nat) : Nat → List MapEntry → String
  | _, [] => ""
  | i, e :: rest =>
      entryLines e ++ (if i < total - 1 then "---" ++ "\n" else "") ++
        renderEntriesAux total (i + 1) rest

/-- The entry loop of `renderContent` (mapdump.go). -/
def renderEntries (entries : List MapEntry) : String :=
  renderEntriesAux entries.length 0 entries

/-- `renderContent` (mapdump.go): error, else loading placeholder, else
no-entries message, else the entry listing. -/
def mapDumpModel.renderContent (m : mapDumpModel) : String :=
  match m.err with
  | some e => "Error: " ++ e.message
  | none =>
      if m.loading then "Loading map contents..."
      else if m.entries.length = 0 then "Map contains no entries"
      else renderEntries m.entries

/-- `mapDumpModel.Update` (mapdump.go): only scrolls the viewport, which
is not modelled, so the state is unchanged. -/
def mapDumpModel.Update (m : mapDumpModel) (_ : Key) : mapDumpModel :=
  m

/-! ## Root navigation controller (tui.go) -/

/-- `Model` (tui.go): the root session state.  The history list is the
navigation stack with its top at the head (the Go slice appends and pops
at the tail; the orientation is mirrored, preserving the stack
discipline exactly). -/
structure Model where
  state : ViewState
  history : List ViewState
  progSvc : Option ProgService
  mapsSvc : Option MapsService
  menu : BList ViewState
  progList : progListModel
  progDetail : progDetailModel
  mapList : mapListModel
  mapDetail : mapDetailModel
  mapDump : mapDumpModel
  width : Nat
  height : Nat
  err : Option GoError
  showHelp : Bool

/-- `NewModel` (tui.go). -/
def NewModel (progSvc : Option ProgService) (mapsSvc : Option MapsService) : Model :=
  { state := ViewMenu, history := [],
    progSvc := progSvc, mapsSvc := mapsSvc,
    menu := newMenuModel, progList := newProgListModel,
    progDetail := newProgDetailModel, mapList := newMapListModel,
    mapDetail := newMapDetailModel, mapDump := newMapDumpModel,
    width := 80, height := 24, err := none, showHelp := false }

/-- `pushState` (tui.go): saves the current view on the stack and moves to
the new one. -/
def Model.pushState (m : Model) (newState : ViewState) : Model :=
  { m with history := m.state :: m.history, state := newState }

/-- `popState` (tui.go): pops the previous view off the stack; on an empty
stack it returns `ViewMenu` and leaves the stack empty. -/
def Model.popState (m : Model) : ViewState × Model :=
  match m.history with
  | [] => (ViewMenu, m)
  | prev :: rest => (prev, { m with history := rest })

/-- `checkPermissions` (tui.go): the zero-argument startup probe, a
`List()` call; a failure is returned as-is when it is a permission error
and wrapped as a potential permission issue otherwise. -/
def Model.checkPermissions (m : Model) : Option GoError :=
  match m.progSvc with
  | none => none
  | some svc =>
      match svc.list with
      | .ok _ => none
      | .error e =>
          if IsPermissionError e then some e
          else some (GoError.permissionError e)

/-- `loadPrograms` (tui.go). -/
def Model.loadPrograms (m : Model) : Model :=
  let m := { m with progList := m.progList.ResetFilter }
  match m.progSvc with
  | none => { m with progList := m.progList.SetPrograms [] }
  | some svc =>
      match svc.list with
      | .error e => { m with progList := m.progList.SetError e }
      | .ok programs => { m with progList := m.progList.SetPrograms programs }

/-- `loadMaps` (tui.go). -/
def Model.loadMaps (m : Model) : Model :=
  let m := { m with mapList := m.mapList.ResetFilter }
  match m.mapsSvc with
  | none => { m with mapList := m.mapList.SetMaps [] }
  | some svc =>
      match svc.list with
      | .error e => { m with mapList := m.mapList.SetError e }
      | .ok maps => { m with mapList := m.mapList.SetMaps maps }

/-- `loadMapByID` (tui.go): a failing `Get` is stored in the TOP-LEVEL
error field `err` (not in any sub-controller). -/
def Model.loadMapByID (m : Model) (id : Nat) : Model :=
  match m.mapsSvc with
  | none => m
  | some svc =>
      match svc.get id with
      | .error e => { m with err := some e }
      | .ok info => { m with mapDetail := m.mapDetail.SetMap (some info) }

/-- `loadMapDump` (tui.go): a failing `Dump` is stored in the dump
sub-controller's local error. -/
def Model.loadMapDump (m : Model) (id : Nat) : Model :=
  match m.mapsSvc with
  | none => { m with mapDump := m.mapDump.SetMapDump id ("") [] }
  | some svc =>
      let mapName :=
        match m.mapDetail.GetMapInfo with
        | some info => if info.id = id then info.name else ""
        | none => ""
      match svc.dump id with
      | .error e => { m with mapDump := m.mapDump.SetError e }
      | .ok entries => { m with mapDump := m.mapDump.SetMapDump id mapName entries }

/-- `handleMenuKeys` (tui.go). -/
def Model.handleMenuKeys (m : Model) (k : Key) : Model × Option Cmd :=
  let (menu, targetView) := menuUpdate m.menu k
  let m := { m with menu := menu }
  match targetView with
  | some target =>
      let m := m.pushState target
      let m :=
        match target with
        | ViewProgList => m.loadPrograms
        | ViewMapList => m.loadMaps
        | _ => m
      (m, none)
  | none => (m, none)

/-- `handleProgListKeys` (tui.go). -/
def Model.handleProgListKeys (m : Model) (k : Key) : Model × Option Cmd :=
  let (progList, selectedProg) := m.progList.Update k
  let m := { m with progList := progList }
  match selectedProg with
  | some prog =>
      let m := m.pushState ViewProgDetail
      ({ m with progDetail := m.progDetail.SetProgram (some prog) }, none)
  | none => (m, none)

/-- `handleProgDetailKeys` (tui.go): a chosen cross-reference pushes the
current view and loads the referenced map. -/
def Model.handleProgDetailKeys (m : Model) (k : Key) : Model × Option Cmd :=
  let (progDetail, selectedMapID) := m.progDetail.Update k
  let m := { m with progDetail := progDetail }
  match selectedMapID with
  | some id =>
      let m := m.pushState ViewMapDetail
      (m.loadMapByID id, none)
  | none => (m, none)

/-- `handleMapListKeys` (tui.go). -/
def Model.handleMapListKeys (m : Model) (k : Key) : Model × Option Cmd :=
  let (mapList, selectedMap) := m.mapList.Update k
  let m := { m with mapList := mapList }
  match selectedMap with
  | some info =>
      let m := m.pushState ViewMapDetail
      ({ m with mapDetail := m.mapDetail.SetMap (some info) }, none)
  | none => (m, none)

/-- `handleMapDetailKeys` (tui.go). -/
def Model.handleMapDetailKeys (m : Model) (k : Key) : Model × Option Cmd :=
  let (mapDetail, dumpSelected) := m.mapDetail.Update k
  let m := { m with mapDetail := mapDetail }
  if dumpSelected then
    let m := m.pushState ViewMapDump
    (m.loadMapDump m.mapDetail.GetMapID, none)
  else (m, none)

/-- `handleMapDumpKeys` (tui.go). -/
def Model.handleMapDumpKeys (m : Model) (k : Key) : Model × Option Cmd :=
  ({ m with mapDump := m.mapDump.Update k }, none)

/-- The filter-entry exception shared by the quit, help and back handling
in `handleKeyMsg` (tui.go): the active view is a list controller that is
currently filtering. -/
def Model.listFiltering (m : Model) : Prop :=
  (m.state = ViewProgList ∧ m.progList.IsFiltering = true) ∨
    (m.state = ViewMapList ∧ m.mapList.IsFiltering = true)

instance (m : Model) : Decidable m.listFiltering := by
  unfold Model.listFiltering; infer_instance

/-- `handleKeyMsg` (tui.go): quit (with filter exception), help toggle
(with filter exception), help dismissal, back (with filter exception),
then view-local dispatch, in that order. -/
def Model.handleKeyMsg (m : Model) (k : Key) : Model × Option Cmd :=
  if k = Key.quit ∧ ¬ m.listFiltering then
    (m, some Cmd.quit)
  else if k = Key.help ∧ ¬ m.listFiltering then
    ({ m with showHelp := !m.showHelp }, none)
  else if m.showHelp then
    ({ m with showHelp := false }, none)
  else if k = Key.back then
    if m.state = ViewProgList ∧ m.progList.IsFiltering = true then
      m.handleProgListKeys k
    else if m.state = ViewMapList ∧ m.mapList.IsFiltering = true then
      m.handleMapListKeys k
    else if m.state ≠ ViewMenu then
      let (prev, m') := m.popState
      ({ m' with state := prev, err := none }, none)
    else (m, none)
  else
    match m.state with
    | ViewMenu => m.handleMenuKeys k
    | ViewProgList => m.handleProgListKeys k
    | ViewProgDetail => m.handleProgDetailKeys k
    | ViewMapList => m.handleMapListKeys k
    | ViewMapDetail => m.handleMapDetailKeys k
    | ViewMapDump => m.handleMapDumpKeys k

/-- `Update` (tui.go): keys go to `handleKeyMsg`; a resize only updates the
stored dimensions (and the sub-controllers' rendering sizes, which are not
modelled); any other message only reaches the active sub-model's widget
and never changes the navigation state. -/
def Model.update (m : Model) (msg : Msg) : Model × Option Cmd :=
  match msg with
  | .key k => m.handleKeyMsg k
  | .resize w h => ({ m with width := w, height := h }, none)
  | .other => (m, none)

/-- The pre-loop part of `RunWithServices` (tui.go): build the model, run
the startup permission probe, and store any failure as the top-level
error before the event loop starts. -/
def RunWithServicesInit (progSvc : Option ProgService) (mapsSvc : Option MapsService) :
    Model :=
  let m := NewModel progSvc mapsSvc
  match m.checkPermissions with
  | some e => { m with err := some e }
  | none => m

/-- The top of `View` (tui.go): a set top-level error takes over the whole
screen (full-screen error with only quit suggested), before help and any
view rendering. -/
def Model.viewTakenOverByError (m : Model) : Bool :=
  m.err.isSome

/-! ## Hex round-trip lemmas -/

theorem hexVal_hexDigit : ∀ n < 16, hexVal (hexDigit n) = some n := by decide

theorem byteHex_data (b : Nat) :
    (byteHex b).data = [hexDigit (b / 16), hexDigit (b % 16)] := rfl

theorem stringsJoin_single (e sep : String) : stringsJoin [e] sep = e := rfl

theorem stringsJoin_cons2 (e f : String) (rest : List String) (sep : String) :
    stringsJoin (e :: f :: rest) sep = e ++ sep ++ stringsJoin (f :: rest) sep := rfl

theorem decode_byteHex (b : Nat) (hb : b < 256) :
    decodeHexChars (byteHex b).data = some [b] := by
  have h1 : b / 16 < 16 := by omega
  have h2 : b % 16 < 16 := by omega
  simp only [byteHex_data, decodeHexChars, hexVal_hexDigit _ h1, hexVal_hexDigit _ h2]
  have h := Nat.div_add_mod b 16
  rw [h]

theorem decode_join (B : List Nat) (hne : B ≠ []) (hlt : ∀ b ∈ B, b < 256) :
    decodeHexChars (stringsJoin (B.map byteHex) (" ")).data = some B := by
  induction B with
  | nil => exact absurd rfl hne
  | cons b rest ih =>
    cases rest with
    | nil =>
      rw [List.map_cons, List.map_nil, stringsJoin_single]
      exact decode_byteHex b (hlt b (by simp))
    | cons r rs =>
      have hb : b < 256 := hlt b (by simp)
      have h1 : b / 16 < 16 := by omega
      have h2 : b % 16 < 16 := by omega
      have ihr := ih (by simp) (fun x hx => hlt x (by simp [hx]))
      rw [List.map_cons, List.map_cons, stringsJoin_cons2, String.data_append,
        String.data_append, byteHex_data]
      rw [List.map_cons] at ihr
      show decodeHexChars
        (hexDigit (b / 16) :: hexDigit (b % 16) :: ' ' ::
          (stringsJoin (byteHex r :: rs.map byteHex) (" ")).data) = _
      simp only [decodeHexChars, if_pos rfl, hexVal_hexDigit _ h1, hexVal_hexDigit _ h2, ihr]
      have h := Nat.div_add_mod b 16
      rw [h]
      simp

/-- C6. Hex round-trip: the renderer emits two hex characters per byte,
space-separated, so the stated decoder reconstructs every non-empty byte
sequence exactly and the rendering is injective on non-empty sequences;
the empty sequence renders as the dedicated `(empty)` marker, which is not
the blank string. -/
theorem hex_round_trip :
    formatHex [] = "(empty)" ∧
    ("(empty)" : String) ≠ "" ∧
    (∀ B : List Nat, B ≠ [] → (∀ b ∈ B, b < 256) →
      decodeHex (formatHex B) = some B) ∧
    (∀ B1 B2 : List Nat, B1 ≠ [] → B2 ≠ [] →
      (∀ b ∈ B1, b < 256) → (∀ b ∈ B2, b < 256) →
      formatHex B1 = formatHex B2 → B1 = B2) := by
  have hdec : ∀ B : List Nat, B ≠ [] → (∀ b ∈ B, b < 256) →
      decodeHex (formatHex B) = some B := by
    intro B hne hlt
    have hlen : ¬ B.length = 0 := by simpa using hne
    unfold formatHex decodeHex
    rw [if_neg hlen]
    exact decode_join B hne hlt
  refine ⟨rfl, by decide, hdec, ?_⟩
  intro B1 B2 h1 h2 hlt1 hlt2 heq
  have e1 := hdec B1 h1 hlt1
  have e2 := hdec B2 h2 hlt2
  rw [heq] at e1
  rw [e1] at e2
  exact (Option.some.injEq _ _).mp e2

/-- Witness for C6 at the concrete byte sequence `[0, 171, 255]`. -/
theorem hex_round_trip_witness :
    decodeHex (formatHex [0, 171, 255]) = some [0, 171, 255] :=
  hex_round_trip.2.2.1 [0, 171, 255] (by decide) (by decide)

/-! ## Dump rendering lemmas -/

theorem renderEntriesAux_join : ∀ (l : List MapEntry) (i total : Nat),
    i + l.length = total →
    renderEntriesAux total i l = stringsJoin (l.map entryLines) ("---" ++ "\n") := by
  intro l
  induction l with
  | nil => intro i total h; rfl
  | cons e rest ih =>
    intro i total h
    cases rest with
    | nil =>
      have hge : ¬ i < total - 1 := by simp at h; omega
      simp [renderEntriesAux, hge, stringsJoin_single]
    | cons f fs =>
      have hlt : i < total - 1 := by simp at h; omega
      have hih := ih (i + 1) total (by simp at h ⊢; omega)
      rw [show renderEntriesAux total i (e :: f :: fs) =
            entryLines e ++ (if i < total - 1 then "---" ++ "\n" else "") ++
              renderEntriesAux total (i + 1) (f :: fs) from rfl]
      rw [if_pos hlt, hih]
      simp [stringsJoin_cons2]

/-- C7. Dump view rendering priority: an installed error renders inline
and wins over loading, which wins over the entry listing; an empty entry
collection renders the dedicated no-entries message; otherwise each entry
contributes one key line and one value line in hex, with a separator line
between consecutive entries and none after the last (the listing is the
separator-interleaved join of the per-entry blocks). -/
theorem dump_render_priority (m : mapDumpModel) :
    (∀ e, m.err = some e → m.renderContent = "Error: " ++ e.message) ∧
    (m.err = none → m.loading = true → m.renderContent = "Loading map contents...") ∧
    (m.err = none → m.loading = false → m.entries = [] →
      m.renderContent = "Map contains no entries") ∧
    (m.err = none → m.loading = false → m.entries ≠ [] →
      m.renderContent = stringsJoin (m.entries.map entryLines) ("---" ++ "\n")) := by
  refine ⟨?_, ?_, ?_, ?_⟩
  · intro e he; simp [mapDumpModel.renderContent, he]
  · intro he hl; simp [mapDumpModel.renderContent, he, hl]
  · intro he hl hent; simp [mapDumpModel.renderContent, he, hl, hent]
  · intro he hl hent
    have hlen : ¬ m.entries.length = 0 := by simpa using hent
    simp only [mapDumpModel.renderContent, he, hl, if_neg hlen, if_neg (by simp : ¬ False),
      Bool.false_eq_true, renderEntries]
    exact renderEntriesAux_join m.entries 0 m.entries.length (by simp)

/-- Witness for C7: error beats loading; empty entries give the dedicated
message; two entries are joined by exactly one separator. -/
theorem dump_render_priority_witness :
    (mapDumpModel.renderContent
        ⟨1, "m", [⟨[1], [2]⟩], true, some (GoError.simpleError "boom")⟩ =
      "Error: boom") ∧
    (mapDumpModel.renderContent ⟨1, "m", [], false, none⟩ =
      "Map contains no entries") ∧
    (mapDumpModel.renderContent ⟨1, "m", [⟨[0], [255]⟩, ⟨[], [1]⟩], false, none⟩ =
      stringsJoin ([(⟨[0], [255]⟩ : MapEntry), ⟨[], [1]⟩].map entryLines) ("---" ++ "\n")) :=
  ⟨((dump_render_priority _).1 (GoError.simpleError "boom") rfl).trans (by decide),
   (dump_render_priority _).2.2.1 rfl rfl rfl,
   (dump_render_priority _).2.2.2 rfl rfl (by decide)⟩

/-! ## Detail cursor lemmas -/

/-- A sequence of key presses fed to the program-detail controller. -/
def pdApplyKeys (m : progDetailModel) : List Key → progDetailModel
  | [] => m
  | k :: ks => pdApplyKeys (m.Update k).1 ks

/-- The cursor bound maintained by the program-detail controller. -/
def pdInBounds (m : progDetailModel) : Prop :=
  0 < m.mapIDs.length → 0 ≤ m.cursor ∧ m.cursor < (m.mapIDs.length : Int)

instance (m : progDetailModel) : Decidable (pdInBounds m) := by
  unfold pdInBounds; infer_instance

theorem pdUpdate_inBounds (m : progDetailModel) (k : Key)
    (h : pdInBounds m) : pdInBounds (m.Update k).1 := by
  cases k <;> simp only [progDetailModel.Update] <;> try exact h
  case up =>
    split
    · next hc =>
        intro hlen
        have hb := h hc.1
        dsimp only at hlen ⊢
        omega
    · exact h
  case down =>
    split
    · next hc =>
        intro hlen
        have hb := h hc.1
        dsimp only at hlen ⊢
        omega
    · exact h
  case enter =>
    split <;> exact h

/-- C8. Detail cross-reference cursor invariant: installing a record
resets the cursor to 0 when the record's cross-references are non-empty
and to -1 (none) when they are empty; every sequence of key presses keeps
the cursor inside `[0, len)` while the list is non-empty; a down press at
the last index and an up press at index 0 are no-ops; a confirm press
with no cross-references reports nothing. -/
theorem detail_cursor_invariant :
    (∀ (pd : progDetailModel) (p : ProgramInfo),
      (0 < p.mapIDs.length → (pd.SetProgram (some p)).cursor = 0) ∧
      (p.mapIDs = [] → (pd.SetProgram (some p)).cursor = -1)) ∧
    (∀ (pd : progDetailModel) (ks : List Key),
      pdInBounds pd → pdInBounds (pdApplyKeys pd ks)) ∧
    (∀ pd : progDetailModel, pd.cursor = (pd.mapIDs.length : Int) - 1 →
      (pd.Update Key.down).1 = pd) ∧
    (∀ pd : progDetailModel, pd.cursor = 0 → (pd.Update Key.up).1 = pd) ∧
    (∀ pd : progDetailModel, pd.mapIDs = [] → (pd.Update Key.enter).2 = none) := by
  refine ⟨?_, ?_, ?_, ?_, ?_⟩
  · intro pd p
    constructor
    · intro hp; simp [progDetailModel.SetProgram, hp]
    · intro hp; simp [progDetailModel.SetProgram, hp]
  · intro pd ks
    induction ks generalizing pd with
    | nil => exact fun h => h
    | cons k ks ih => exact fun h => ih _ (pdUpdate_inBounds pd k h)
  · intro pd hc
    simp only [progDetailModel.Update]
    rw [if_neg]
    rintro ⟨-, hlt⟩
    omega
  · intro pd hc
    simp only [progDetailModel.Update]
    rw [if_neg]
    rintro ⟨-, hlt⟩
    omega
  · intro pd hids
    simp [progDetailModel.Update, hids]

/-- The program of the C8 witness: two cross-referenced maps. -/
def progW : ProgramInfo :=
  { id := 1, typ := "kprobe", name := "test_prog", tag := "abc", gpl := true,
    loadedAt := "", uid := 0, bytesXlated := 0, bytesJIT := 0, memLock := 0,
    mapIDs := [10, 20] }

/-- The detail state of the C8 witness. -/
def pdW : progDetailModel := newProgDetailModel.SetProgram (some progW)

/-- Witness for C8: on a record with cross-references `[10, 20]` the
cursor resets to 0, three down presses followed by an up press stay in
bounds, a down press at the last index is a no-op, and confirm on an
empty record reports nothing. -/
theorem detail_cursor_invariant_witness :
    pdW.cursor = 0 ∧
    pdInBounds (pdApplyKeys pdW [Key.down, Key.down, Key.down, Key.up]) ∧
    ((pdApplyKeys pdW [Key.down]).Update Key.down).1 = pdApplyKeys pdW [Key.down] ∧
    (newProgDetailModel.Update Key.enter).2 = none :=
  ⟨(detail_cursor_invariant.1 newProgDetailModel progW).1 (by decide),
   detail_cursor_invariant.2.1 pdW [Key.down, Key.down, Key.down, Key.up] (by decide),
   detail_cursor_invariant.2.2.1 (pdApplyKeys pdW [Key.down]) (by decide),
   detail_cursor_invariant.2.2.2.2 newProgDetailModel (by decide)⟩

/-- C9. Empty-list edge case: with an empty source collection and no
error, the programs list renders the dedicated empty-state message,
up/down presses change nothing and report no selection, a confirm press
reports no selection, and at the root a confirm press in that view
triggers no forward transition (view and history are unchanged). -/
theorem empty_list_edge_case (pl : progListModel)
    (hprog : pl.programs = []) (hitems : pl.list.items = [])
    (hidx : pl.list.index = 0) (herr : pl.err = none) :
    pl.View = "BPF Programs" ++ "\n\n" ++ "No BPF programs loaded" ∧
    (pl.Update Key.up).1 = pl ∧ (pl.Update Key.down).1 = pl ∧
    (pl.Update Key.up).2 = none ∧ (pl.Update Key.down).2 = none ∧
    (pl.Update Key.enter).2 = none ∧
    (∀ m : Model, m.state = ViewProgList → m.progList = pl →
      (m.handleKeyMsg Key.enter).1.state = ViewProgList ∧
      (m.handleKeyMsg Key.enter).1.history = m.history) := by
  have hbup : pl.list.update Key.up = pl.list := by
    unfold BList.update
    split
    · rfl
    · simp [hidx]
  have hbdown : pl.list.update Key.down = pl.list := by
    unfold BList.update
    split
    · rfl
    · simp [hitems]
  have hup : (pl.Update Key.up).1 = pl := by
    unfold progListModel.Update
    split
    · rw [hbup]
    · rw [hbup]
  have hdown : (pl.Update Key.down).1 = pl := by
    unfold progListModel.Update
    split
    · rw [hbdown]
    · rw [hbdown]
  have hsel : pl.list.selectedItem = none := by
    simp [BList.selectedItem, hitems]
  have henter : (pl.Update Key.enter).2 = none := by
    unfold progListModel.Update
    split
    · rfl
    · simp [hsel]
  refine ⟨?_, hup, hdown, ?_, ?_, henter, ?_⟩
  · simp [progListModel.View, hprog, herr]
  · unfold progListModel.Update
    split <;> simp
  · unfold progListModel.Update
    split <;> simp
  · intro m hstate hpl
    unfold Model.handleKeyMsg
    rw [if_neg (by simp), if_neg (by simp)]
    split
    · exact ⟨hstate, rfl⟩
    · rw [if_neg (by simp)]
      rw [hstate]
      unfold Model.handleProgListKeys
      rcases hupd : m.progList.Update Key.enter with ⟨pl2, sel⟩
      have hseln : sel = none := by
        have h2 := henter
        rw [← hpl, hupd] at h2
        exact h2
      subst hseln
      simp only [hupd]
      exact ⟨hstate, trivial⟩

/-- The model of the C9 witness: the menu confirm with no service
configured, which lands on an empty programs list. -/
def mW : Model := ((NewModel none none).update (Msg.key Key.enter)).1

/-- Witness for C9 on the empty programs list reached from the menu with
no service configured. -/
theorem empty_list_edge_case_witness :
    mW.progList.View = "BPF Programs" ++ "\n\n" ++ "No BPF programs loaded" ∧
    (mW.progList.Update Key.enter).2 = none ∧
    (mW.handleKeyMsg Key.enter).1.state = ViewProgList ∧
    (mW.handleKeyMsg Key.enter).1.history = mW.history := by
  have h := empty_list_edge_case mW.progList (by decide) (by decide) (by decide) (by decide)
  have h7 := h.2.2.2.2.2.2 mW (by decide) rfl
  exact ⟨h.1, h.2.2.2.2.2.1, h7.1, h7.2⟩

/-! ## Startup permission probe -/

/-- A service whose probe fails with an ordinary (non-permission) error. -/
def svcFail : ProgService :=
  { list := Except.error (GoError.simpleError "boom"),
    get := fun _ => Except.error (GoError.simpleError "boom") }

/-- A service whose probe succeeds. -/
def svcOk : ProgService :=
  { list := Except.ok [], get := fun _ => Except.error (GoError.simpleError "nope") }

/-- Counterexample to C4: a probe failure classified as "other"
(`IsPermissionError` is false) still takes the top-level fatal path: the
error (wrapped as a potential permission issue) is stored as the
top-level error and takes over the screen. -/
theorem probe_other_error_takes_fatal_path :
    IsPermissionError (GoError.simpleError "boom") = false ∧
    (RunWithServicesInit (some svcFail) none).err =
      some (GoError.permissionError (GoError.simpleError "boom")) ∧
    (RunWithServicesInit (some svcFail) none).viewTakenOverByError = true :=
  ⟨rfl, rfl, rfl⟩

/-- C4 (amended). Every failure of the zero-argument startup probe takes
the top-level fatal path; the permission-denied vs. other classification
determines only whether the error is stored as-is or wrapped as a
potential permission issue.  A successful probe stores no error. -/
theorem startup_probe_classification (svc : ProgService) (q : Option MapsService) :
    (∀ e, svc.list = Except.error e →
      (RunWithServicesInit (some svc) q).err =
        some (if IsPermissionError e then e else GoError.permissionError e)) ∧
    (∀ ps, svc.list = Except.ok ps →
      (RunWithServicesInit (some svc) q).err = none) := by
  constructor
  · intro e he
    unfold RunWithServicesInit Model.checkPermissions
    simp only [NewModel]
    rw [he]
    dsimp only
    split
    · next h => split at h <;> simp_all
    · next h => split at h <;> simp_all
  · intro ps he
    unfold RunWithServicesInit Model.checkPermissions
    simp only [NewModel]
    rw [he]

/-- Witness for C4 (amended): a failing probe always stores a top-level
error; a succeeding one stores none. -/
theorem startup_probe_classification_witness :
    (RunWithServicesInit (some svcFail) none).err =
      some (GoError.permissionError (GoError.simpleError "boom")) ∧
    (RunWithServicesInit (some svcOk) none).err = none :=
  ⟨((startup_probe_classification svcFail none).1 (GoError.simpleError "boom") rfl).trans
      (by decide),
   (startup_probe_classification svcOk none).2 [] rfl⟩

/-! ## Fetch-failure localisation (C2, C3) -/

/-- The map of the navigation scenarios: id 10, as cross-referenced by
`progW`. -/
def mapW : MapInfo :=
  { id := 10, typ := "hash", name := "associated_map", keySize := 4,
    valueSize := 8, maxEntries := 100, flags := 0, memLock := 0,
    loadedAt := "", uid := 0 }

/-- Programs service of the C2 scenario: listing succeeds. -/
def c2ProgSvc : ProgService :=
  { list := Except.ok [progW],
    get := fun _ => Except.error (GoError.simpleError "unused") }

/-- Maps service of the C2 scenario: every `Get` fails (the
cross-reference resolves to nothing). -/
def c2MapsSvc : MapsService :=
  { list := Except.ok [],
    get := fun _ => Except.error (GoError.simpleError "map not found"),
    dump := fun _ => Except.ok [] }

/-- C2 scenario trace: Menu, then programs list, then program detail,
then the cross-reference confirm whose `Get` fails. -/
def c2m0 : Model := NewModel (some c2ProgSvc) (some c2MapsSvc)

def c2m1 : Model := (c2m0.update (Msg.key Key.enter)).1

def c2m2 : Model := (c2m1.update (Msg.key Key.enter)).1

def c2m3 : Model := (c2m2.update (Msg.key Key.enter)).1

/-- Counterexample to C2: following an associated-map cross-reference
whose `Get` fails stores the failure as the TOP-LEVEL error (taking over
the whole screen), not as a view-local error of any sub-controller. -/
theorem xref_not_found_sets_top_level_error :
    c2m3.state = ViewMapDetail ∧
    c2m3.err = some (GoError.simpleError "map not found") ∧
    c2m3.viewTakenOverByError = true ∧
    c2m3.progList.err = none ∧ c2m3.mapList.err = none ∧
    c2m3.mapDump.err = none := by
  refine ⟨rfl, rfl, rfl, rfl, rfl, rfl⟩

/-- C2 (amended). After startup, a failing list fetch or dump fetch is
stored as a view-local error on the sub-controller that triggered it and
leaves the top-level error untouched; the one exception besides the
startup probe is the cross-reference map `Get` (`loadMapByID`), whose
failure is stored as the top-level error. -/
theorem fetch_failures_view_local_except_xref (m : Model) (e : GoError) :
    (∀ svc, m.progSvc = some svc → svc.list = Except.error e →
      m.loadPrograms.progList.err = some e ∧ m.loadPrograms.err = m.err) ∧
    (∀ svc, m.mapsSvc = some svc → svc.list = Except.error e →
      m.loadMaps.mapList.err = some e ∧ m.loadMaps.err = m.err) ∧
    (∀ svc id, m.mapsSvc = some svc → svc.dump id = Except.error e →
      (m.loadMapDump id).mapDump.err = some e ∧ (m.loadMapDump id).err = m.err) ∧
    (∀ svc id, m.mapsSvc = some svc → svc.get id = Except.error e →
      (m.loadMapByID id).err = some e ∧
        (m.loadMapByID id).mapDetail = m.mapDetail) := by
  refine ⟨?_, ?_, ?_, ?_⟩
  · intro svc hsvc hlist
    unfold Model.loadPrograms
    simp only [hsvc, hlist]
    exact ⟨rfl, trivial⟩
  · intro svc hsvc hlist
    unfold Model.loadMaps
    simp only [hsvc, hlist]
    exact ⟨rfl, trivial⟩
  · intro svc id hsvc hdump
    unfold Model.loadMapDump
    simp only [hsvc, hdump]
    exact ⟨rfl, trivial⟩
  · intro svc id hsvc hget
    unfold Model.loadMapByID
    simp only [hsvc, hget]
    exact ⟨trivial, trivial⟩

/-- Witness for C2 (amended): a failing programs listing is view-local
with the top-level error untouched; the failing cross-reference `Get` of
the C2 scenario is top-level. -/
theorem fetch_failures_view_local_except_xref_witness :
    (NewModel (some svcFail) none).loadPrograms.progList.err =
      some (GoError.simpleError "boom") ∧
    (NewModel (some svcFail) none).loadPrograms.err = none ∧
    (c2m2.loadMapByID 10).err = some (GoError.simpleError "map not found") :=
  ⟨((fetch_failures_view_local_except_xref (NewModel (some svcFail) none)
      (GoError.simpleError "boom")).1 svcFail rfl rfl).1,
   ((fetch_failures_view_local_except_xref (NewModel (some svcFail) none)
      (GoError.simpleError "boom")).1 svcFail rfl rfl).2.trans rfl,
   ((fetch_failures_view_local_except_xref c2m2
      (GoError.simpleError "map not found")).2.2.2 c2MapsSvc 10 rfl rfl).1⟩

/-- Maps service of the C3 scenario: listing and `Get` succeed, `Dump`
fails. -/
def c3MapsSvc : MapsService :=
  { list := Except.ok [mapW],
    get := fun i => if i = 10 then Except.ok mapW
                    else Except.error (GoError.simpleError "map not found"),
    dump := fun _ => Except.error (GoError.simpleError "dump failed") }

/-- C3 scenario trace: Menu, down to Maps, maps list, map detail, then
the dump request that fails, then one back press. -/
def c3m0 : Model := NewModel none (some c3MapsSvc)

def c3m1 : Model := (c3m0.update (Msg.key Key.down)).1

def c3m2 : Model := (c3m1.update (Msg.key Key.enter)).1

def c3m3 : Model := (c3m2.update (Msg.key Key.enter)).1

def c3m4 : Model := (c3m3.update (Msg.key Key.enter)).1

def c3m5 : Model := (c3m4.update (Msg.key Key.back)).1

/-- Counterexample to C3: after the failed dump fetch, the back press
returns to the map detail view but the dump controller STILL holds the
view-local error; backward navigation does not clear it (only the
top-level error field is cleared). -/
theorem back_does_not_clear_dump_error :
    c3m4.state = ViewMapDump ∧
    c3m4.mapDump.err = some (GoError.simpleError "dump failed") ∧
    c3m5.state = ViewMapDetail ∧
    c3m5.mapDump.err = some (GoError.simpleError "dump failed") := by
  refine ⟨rfl, rfl, rfl, rfl⟩

/-- A back key press, outside the filter and help exceptions and away
from the menu, pops the stack and clears the top-level error. -/
theorem backKey_pops (m : Model) (hhelp : m.showHelp = false)
    (hpf : ¬ (m.state = ViewProgList ∧ m.progList.IsFiltering = true))
    (hmf : ¬ (m.state = ViewMapList ∧ m.mapList.IsFiltering = true))
    (hmenu : m.state ≠ ViewMenu) :
    m.handleKeyMsg Key.back =
      ({ (m.popState).2 with state := (m.popState).1, err := none }, none) := by
  unfold Model.handleKeyMsg
  rw [if_neg (by simp), if_neg (by simp), if_neg (by simp [hhelp]), if_pos rfl,
    if_neg hpf, if_neg hmf, if_pos hmenu]

/-- The concrete shape of a popping back press on a non-empty stack. -/
theorem backKey_pops_cons (m : Model) (hhelp : m.showHelp = false)
    (hpf : ¬ (m.state = ViewProgList ∧ m.progList.IsFiltering = true))
    (hmf : ¬ (m.state = ViewMapList ∧ m.mapList.IsFiltering = true))
    (hmenu : m.state ≠ ViewMenu) (v : ViewState) (rest : List ViewState)
    (hh : m.history = v :: rest) :
    m.handleKeyMsg Key.back =
      ({ m with state := v, history := rest, err := none }, none) := by
  rw [backKey_pops m hhelp hpf hmf hmenu]
  unfold Model.popState
  rw [hh]

/-- C3 (amended). A back press out of the failed dump view pops back to
the previous view (the map detail view, whose own state the failure left
untouched) and clears the top-level error; the dump controller's
view-local error is left in place, no longer rendered, and is only
replaced when the dump view is next loaded. -/
theorem back_from_failed_dump (m : Model)
    (hstate : m.state = ViewMapDump) (hhelp : m.showHelp = false) :
    (m.handleKeyMsg Key.back).1.err = none ∧
    (m.handleKeyMsg Key.back).1.mapDetail = m.mapDetail ∧
    (m.handleKeyMsg Key.back).1.mapDump = m.mapDump ∧
    (m.handleKeyMsg Key.back).1.state = m.history.headD ViewMenu ∧
    (∀ id, (m.loadMapDump id).mapDetail = m.mapDetail) ∧
    (∀ svc id entries, m.mapsSvc = some svc → svc.dump id = Except.ok entries →
      (m.loadMapDump id).mapDump.err = none) ∧
    (∀ svc id e2, m.mapsSvc = some svc → svc.dump id = Except.error e2 →
      (m.loadMapDump id).mapDump.err = some e2) := by
  have hback := backKey_pops m hhelp (by simp [hstate]) (by simp [hstate])
    (by simp [hstate])
  refine ⟨?_, ?_, ?_, ?_, ?_, ?_, ?_⟩
  · rw [hback]
  · rw [hback]
    rcases hh : m.history with _ | ⟨v, rest⟩ <;> simp [Model.popState, hh]
  · rw [hback]
    rcases hh : m.history with _ | ⟨v, rest⟩ <;> simp [Model.popState, hh]
  · rw [hback]
    rcases hh : m.history with _ | ⟨v, rest⟩ <;> simp [Model.popState, hh]
  · intro id
    unfold Model.loadMapDump
    rcases hs : m.mapsSvc with _ | svc
    · simp [hs]
    · rcases hd : svc.dump id with e2 | entries <;> simp [hs, hd]
  · intro svc id entries hsvc hdump
    unfold Model.loadMapDump
    simp only [hsvc, hdump]
    rfl
  · intro svc id e2 hsvc hdump
    unfold Model.loadMapDump
    simp only [hsvc, hdump]
    rfl

/-- Witness for C3 (amended), on the C3 scenario after the failed dump. -/
theorem back_from_failed_dump_witness :
    c3m5.err = none ∧
    c3m5.mapDetail = c3m4.mapDetail ∧
    c3m5.mapDump = c3m4.mapDump ∧
    c3m5.state = ViewMapDetail :=
  ⟨(back_from_failed_dump c3m4 rfl rfl).1,
   (back_from_failed_dump c3m4 rfl rfl).2.1,
   (back_from_failed_dump c3m4 rfl rfl).2.2.1,
   ((back_from_failed_dump c3m4 rfl rfl).2.2.2.1).trans rfl⟩

/-! ## Quit handling (C5) -/

theorem handleMenuKeys_cmd (m : Model) (k : Key) : (m.handleMenuKeys k).2 = none := by
  unfold Model.handleMenuKeys
  rcases hu : menuUpdate m.menu k with ⟨menu2, t?⟩
  simp only [hu]
  rcases t? with _ | t
  · rfl
  · cases t <;> rfl

theorem handleProgListKeys_cmd (m : Model) (k : Key) :
    (m.handleProgListKeys k).2 = none := by
  unfold Model.handleProgListKeys
  rcases hu : m.progList.Update k with ⟨pl, sel⟩
  simp only [hu]
  rcases sel with _ | p <;> rfl

theorem handleProgDetailKeys_cmd (m : Model) (k : Key) :
    (m.handleProgDetailKeys k).2 = none := by
  unfold Model.handleProgDetailKeys
  rcases hu : m.progDetail.Update k with ⟨pd, sel⟩
  simp only [hu]
  rcases sel with _ | id <;> rfl

theorem handleMapListKeys_cmd (m : Model) (k : Key) :
    (m.handleMapListKeys k).2 = none := by
  unfold Model.handleMapListKeys
  rcases hu : m.mapList.Update k with ⟨ml, sel⟩
  simp only [hu]
  rcases sel with _ | info <;> rfl

theorem handleMapDetailKeys_cmd (m : Model) (k : Key) :
    (m.handleMapDetailKeys k).2 = none := by
  unfold Model.handleMapDetailKeys
  rcases hu : m.mapDetail.Update k with ⟨md, sel⟩
  simp only [hu]
  rcases sel with _ | _ <;> rfl

theorem dispatch_cmd (m : Model) (k : Key) :
    (match m.state with
      | ViewMenu => m.handleMenuKeys k
      | ViewProgList => m.handleProgListKeys k
      | ViewProgDetail => m.handleProgDetailKeys k
      | ViewMapList => m.handleMapListKeys k
      | ViewMapDetail => m.handleMapDetailKeys k
      | ViewMapDump => m.handleMapDumpKeys k).2 = none := by
  rcases hst : m.state <;> simp only [hst] <;>
    first
      | exact handleMenuKeys_cmd m k
      | exact handleProgListKeys_cmd m k
      | exact handleProgDetailKeys_cmd m k
      | exact handleMapListKeys_cmd m k
      | exact handleMapDetailKeys_cmd m k
      | rfl

/-- The command produced by one key event: the terminate command exactly
when the quit key is pressed outside filter-entry mode, and nothing
otherwise. -/
theorem handleKeyMsg_cmd (m : Model) (k : Key) :
    (m.handleKeyMsg k).2 =
      if k = Key.quit ∧ ¬ m.listFiltering then some Cmd.quit else none := by
  unfold Model.handleKeyMsg
  by_cases hq : k = Key.quit ∧ ¬ m.listFiltering
  · rw [if_pos hq, if_pos hq]
  · rw [if_neg hq, if_neg hq]
    split
    · rfl
    · split
      · rfl
      · split
        · split
          · exact handleProgListKeys_cmd m k
          · split
            · exact handleMapListKeys_cmd m k
            · split
              · rfl
              · rfl
        · exact dispatch_cmd m k

/-- C5. The root update produces the terminate command exactly for the
quit key pressed while the active view is not a list controller in
filter-entry mode; a quit key pressed during filter entry is instead
forwarded to that list controller (as ordinary text), and no other event,
key or otherwise, ever terminates the session. -/
theorem quit_only_on_quit_key (m : Model) (msg : Msg) :
    ((m.update msg).2 = some Cmd.quit ↔
      msg = Msg.key Key.quit ∧ ¬ m.listFiltering) ∧
    (m.showHelp = false → m.state = ViewProgList → m.progList.IsFiltering = true →
      m.handleKeyMsg Key.quit = m.handleProgListKeys Key.quit) ∧
    (m.showHelp = false → m.state = ViewMapList → m.mapList.IsFiltering = true →
      m.handleKeyMsg Key.quit = m.handleMapListKeys Key.quit) := by
  refine ⟨⟨?_, ?_⟩, ?_, ?_⟩
  · intro h
    cases msg with
    | key k =>
        rw [show (m.update (Msg.key k)).2 = (m.handleKeyMsg k).2 from rfl,
          handleKeyMsg_cmd] at h
        split at h
        · next hq => exact ⟨by rw [hq.1], hq.2⟩
        · exact absurd h (by simp)
    | resize w h2 => exact absurd h (by simp [Model.update])
    | other => exact absurd h (by simp [Model.update])
  · rintro ⟨hmsg, hnf⟩
    subst hmsg
    rw [show (m.update (Msg.key Key.quit)).2 = (m.handleKeyMsg Key.quit).2 from rfl,
      handleKeyMsg_cmd, if_pos ⟨rfl, hnf⟩]
  · intro hhelp hstate hf
    have hfil : m.listFiltering := Or.inl ⟨hstate, hf⟩
    unfold Model.handleKeyMsg
    rw [if_neg (show ¬ (Key.quit = Key.quit ∧ ¬ m.listFiltering) from
        fun hc => hc.2 hfil),
      if_neg (show ¬ (Key.quit = Key.help ∧ ¬ m.listFiltering) from
        fun hc => absurd hc.1 (by decide)),
      if_neg (show ¬ (m.showHelp = true) from by simp [hhelp]),
      if_neg (show ¬ (Key.quit = Key.back) from by decide), hstate]
  · intro hhelp hstate hf
    have hfil : m.listFiltering := Or.inr ⟨hstate, hf⟩
    unfold Model.handleKeyMsg
    rw [if_neg (show ¬ (Key.quit = Key.quit ∧ ¬ m.listFiltering) from
        fun hc => hc.2 hfil),
      if_neg (show ¬ (Key.quit = Key.help ∧ ¬ m.listFiltering) from
        fun hc => absurd hc.1 (by decide)),
      if_neg (show ¬ (m.showHelp = true) from by simp [hhelp]),
      if_neg (show ¬ (Key.quit = Key.back) from by decide), hstate]

/-- Witness for C5: the quit key terminates the session at the menu, and
an enter key never does. -/
theorem quit_only_on_quit_key_witness :
    ((NewModel none none).update (Msg.key Key.quit)).2 = some Cmd.quit ∧
    ¬ ((NewModel none none).update (Msg.key Key.enter)).2 = some Cmd.quit :=
  ⟨(quit_only_on_quit_key (NewModel none none) (Msg.key Key.quit)).1.mpr
      ⟨rfl, by decide⟩,
   fun h => by
    have h2 := (quit_only_on_quit_key (NewModel none none) (Msg.key Key.enter)).1.mp h
    simp at h2⟩

/-! ## Stack symmetry (C1) -/

/-- One back-key press. -/
def backStep (m : Model) : Model := (m.handleKeyMsg Key.back).1

/-- The sequence of views visited by `n` successive back-key presses. -/
def backVisits : Model → Nat → List ViewState
  | _, 0 => []
  | m, n + 1 => (backStep m).state :: backVisits (backStep m) n

/-- A chain of forward transitions: each step is one key event that
performs exactly one `pushState` (menu selection, list selection,
cross-reference follow or dump request), recording the views it pushes
(the views being left, in order). -/
inductive ForwardChain : Model → List ViewState → Model → Prop where
  | nil (m : Model) : ForwardChain m [] m
  | cons {m m' m'' : Model} {k : Key} {ss : List ViewState}
      (hstep : (m.handleKeyMsg k).1 = m')
      (hpush : m'.history = m.state :: m.history)
      (hrest : ForwardChain m' ss m'') :
      ForwardChain m (m.state :: ss) m''

theorem ForwardChain.history_eq {m m'' : Model} {ss : List ViewState}
    (h : ForwardChain m ss m'') :
    m''.history = ss.reverse ++ m.history := by
  induction h with
  | nil => simp
  | cons hstep hpush hrest ih =>
      rw [ih, hpush]
      simp

/-- Walking the stack down: as long as the part of the stack being popped
contains the root view only at its very bottom, successive back presses
visit exactly the popped prefix, in order. -/
theorem backVisits_pops : ∀ (toPop rest : List ViewState) (m : Model),
    m.showHelp = false → m.progList.IsFiltering = false →
    m.mapList.IsFiltering = false → m.state ≠ ViewMenu →
    (∀ v ∈ toPop.dropLast, v ≠ ViewMenu) →
    m.history = toPop ++ rest →
    backVisits m toPop.length = toPop := by
  intro toPop
  induction toPop with
  | nil => intro rest m _ _ _ _ _ _; rfl
  | cons v tp ih =>
    intro rest m hhelp hpf hmf hmenu hdrop hh
    have hpf2 : ¬ (m.state = ViewProgList ∧ m.progList.IsFiltering = true) := by
      rintro ⟨-, hf⟩; rw [hpf] at hf; exact absurd hf (by simp)
    have hmf2 : ¬ (m.state = ViewMapList ∧ m.mapList.IsFiltering = true) := by
      rintro ⟨-, hf⟩; rw [hmf] at hf; exact absurd hf (by simp)
    have hstep := backKey_pops_cons m hhelp hpf2 hmf2 hmenu v (tp ++ rest) hh
    have hbs : backStep m = { m with state := v, history := tp ++ rest, err := none } := by
      unfold backStep
      rw [hstep]
    show (backStep m).state :: backVisits (backStep m) tp.length = v :: tp
    rw [hbs]
    refine congrArg₂ _ rfl ?_
    cases tp with
    | nil => rfl
    | cons w ts =>
      refine ih rest _ hhelp hpf hmf ?_ ?_ rfl
      · have hv : v ∈ (v :: w :: ts).dropLast := by
          rw [List.dropLast_cons₂]
          exact List.mem_cons_self v _
        exact hdrop v hv
      · intro x hx
        refine hdrop x ?_
        rw [List.dropLast_cons₂]
        exact List.mem_cons_of_mem v hx

/-- C1. Stack symmetry: from any state produced by a chain of forward
transitions, with the help overlay closed and no list filtering, as many
back presses as forward transitions visit exactly the views the forward
transitions left, in reverse order — including cross-reference jumps that
skip the generic listing. -/
theorem stack_symmetry {m m'' : Model} {ss : List ViewState}
    (hchain : ForwardChain m ss m'')
    (hhelp : m''.showHelp = false)
    (hpf : m''.progList.IsFiltering = false)
    (hmf : m''.mapList.IsFiltering = false)
    (hmenu : ∀ v ∈ ss.tail, v ≠ ViewMenu)
    (hstate : ss ≠ [] → m''.state ≠ ViewMenu) :
    backVisits m'' ss.length = ss.reverse := by
  have hh := hchain.history_eq
  rcases hss : ss with _ | ⟨s0, sr⟩
  · rfl
  · rw [← hss]
    rw [show ss.length = ss.reverse.length by simp]
    refine backVisits_pops ss.reverse m.history m'' hhelp hpf hmf
      (hstate (by rw [hss]; simp)) ?_ hh
    intro v hv
    rw [List.dropLast_reverse, List.mem_reverse] at hv
    exact hmenu v hv

/-- Maps service of the C1 witness scenario: `Get 10` succeeds. -/
def c1MapsSvc : MapsService :=
  { list := Except.ok [mapW],
    get := fun i => if i = 10 then Except.ok mapW
                    else Except.error (GoError.simpleError "map not found"),
    dump := fun _ => Except.ok [] }

/-- C1 witness trace: Menu, programs list, program detail, then the map
detail reached via the cross-reference. -/
def c1m0 : Model := NewModel (some c2ProgSvc) (some c1MapsSvc)

def c1m1 : Model := (c1m0.handleKeyMsg Key.enter).1

def c1m2 : Model := (c1m1.handleKeyMsg Key.enter).1

def c1m3 : Model := (c1m2.handleKeyMsg Key.enter).1

/-- Witness for C1: after Menu, programs list, program detail and a
cross-reference jump to map detail, three back presses visit program
detail, then the programs list, then the menu — not the generic map
list. -/
theorem stack_symmetry_witness :
    backVisits c1m3 3 = [ViewProgDetail, ViewProgList, ViewMenu] := by
  have hchain : ForwardChain c1m0 [ViewMenu, ViewProgList, ViewProgDetail] c1m3 :=
    ForwardChain.cons rfl (by decide)
      (ForwardChain.cons rfl (by decide)
        (ForwardChain.cons rfl (by decide) (ForwardChain.nil c1m3)))
  exact stack_symmetry hchain (by decide) (by decide) (by decide)
    (by decide) (fun _ => by decide)

/-! ## Reachable-state navigation invariant (C10) -/

/-- The states reachable from the initial model by message-driven
transitions. -/
inductive Reachable (p : Option ProgService) (q : Option MapsService) : Model → Prop where
  | init : Reachable p q (NewModel p q)
  | step {m : Model} (msg : Msg) (h : Reachable p q m) :
      Reachable p q (m.update msg).1

/-- The navigation invariant: the stack is empty exactly at the menu, the
menu occurs only at the very bottom of a non-empty stack, and the menu
widget keeps its two fixed items (so every menu selection targets a
non-menu view). -/
def NavInv (m : Model) : Prop :=
  (m.history = [] ↔ m.state = ViewMenu) ∧
  (m.history ≠ [] → ∃ pre, m.history = pre ++ [ViewMenu] ∧ ViewMenu ∉ pre) ∧
  m.menu.items = [ViewProgList, ViewMapList]

theorem BList.update_items {α : Type} (l : BList α) (k : Key) :
    (l.update k).items = l.items := by
  unfold BList.update
  split
  · split <;> rfl
  · split <;> (try split) <;> rfl

theorem navInv_of_fields {a b : Model} (hs : a.state = b.state)
    (hh : a.history = b.history) (hm : a.menu = b.menu)
    (h : NavInv b) : NavInv a := by
  unfold NavInv at h ⊢
  rw [hs, hh, hm]
  exact h

theorem loadPrograms_nav (m : Model) :
    m.loadPrograms.state = m.state ∧ m.loadPrograms.history = m.history ∧
      m.loadPrograms.menu = m.menu := by
  unfold Model.loadPrograms
  rcases hs : m.progSvc with _ | svc
  · simp only [hs]
    refine ⟨?_, ?_, ?_⟩ <;> trivial
  · simp only [hs]
    rcases hl : svc.list with e | ps <;> simp only [hl] <;>
      refine ⟨?_, ?_, ?_⟩ <;> trivial

theorem loadMaps_nav (m : Model) :
    m.loadMaps.state = m.state ∧ m.loadMaps.history = m.history ∧
      m.loadMaps.menu = m.menu := by
  unfold Model.loadMaps
  rcases hs : m.mapsSvc with _ | svc
  · simp only [hs]
    refine ⟨?_, ?_, ?_⟩ <;> trivial
  · simp only [hs]
    rcases hl : svc.list with e | ms <;> simp only [hl] <;>
      refine ⟨?_, ?_, ?_⟩ <;> trivial

theorem loadMapByID_nav (m : Model) (id : Nat) :
    (m.loadMapByID id).state = m.state ∧ (m.loadMapByID id).history = m.history ∧
      (m.loadMapByID id).menu = m.menu := by
  unfold Model.loadMapByID
  rcases hs : m.mapsSvc with _ | svc
  · simp only [hs]
    refine ⟨?_, ?_, ?_⟩ <;> trivial
  · simp only [hs]
    rcases hl : svc.get id with e | info <;> simp only [hl] <;>
      refine ⟨?_, ?_, ?_⟩ <;> trivial

theorem loadMapDump_nav (m : Model) (id : Nat) :
    (m.loadMapDump id).state = m.state ∧ (m.loadMapDump id).history = m.history ∧
      (m.loadMapDump id).menu = m.menu := by
  unfold Model.loadMapDump
  rcases hs : m.mapsSvc with _ | svc
  · simp only [hs]
    refine ⟨?_, ?_, ?_⟩ <;> trivial
  · simp only [hs]
    rcases hl : svc.dump id with e | entries <;> simp only [hl] <;>
      refine ⟨?_, ?_, ?_⟩ <;> trivial

/-- Pushing a non-menu view preserves the navigation invariant. -/
theorem navInv_push (m : Model) (h : NavInv m) (t : ViewState) (ht : t ≠ ViewMenu) :
    NavInv (m.pushState t) := by
  obtain ⟨hiff, hbot, hmenu⟩ := h
  have hstm : m.history ≠ [] → m.state ≠ ViewMenu := by
    intro hne hs
    exact hne (hiff.mpr hs)
  refine ⟨?_, ?_, hmenu⟩
  · unfold Model.pushState
    constructor
    · intro hc
      exact absurd hc (by simp)
    · intro hc
      exact absurd hc ht
  · intro _
    unfold Model.pushState
    rcases hh : m.history with _ | ⟨v, rest⟩
    · have hst : m.state = ViewMenu := hiff.mp hh
      refine ⟨[], ?_, by simp⟩
      show m.state :: ([] : List ViewState) = [] ++ [ViewMenu]
      rw [hst]
      rfl
    · have hne : m.history ≠ [] := by rw [hh]; simp
      obtain ⟨pre, hpre, hnm⟩ := hbot hne
      rw [hh] at hpre
      refine ⟨m.state :: pre, ?_, ?_⟩
      · show m.state :: v :: rest = (m.state :: pre) ++ [ViewMenu]
        rw [List.cons_append, hpre]
      · have hsm := hstm hne
        simp only [List.mem_cons, not_or]
        exact ⟨fun hc => hsm hc.symm, hnm⟩

theorem progList_update_filtering (pl : progListModel) (k : Key)
    (hf : pl.IsFiltering = true) :
    pl.Update k = ({ pl with list := pl.list.update k }, none) := by
  unfold progListModel.Update
  rw [if_pos (show pl.list.filtering = true from hf)]

theorem mapList_update_filtering (ml : mapListModel) (k : Key)
    (hf : ml.IsFiltering = true) :
    ml.Update k = ({ ml with list := ml.list.update k }, none) := by
  unfold mapListModel.Update
  rw [if_pos (show ml.list.filtering = true from hf)]

theorem menuUpdate_items (menu : BList ViewState) (k : Key) :
    (menuUpdate menu k).1.items = menu.items := by
  unfold menuUpdate
  cases k <;> try exact BList.update_items menu _
  rcases hsel : menu.selectedItem with _ | t
  · show (menu.update Key.enter).items = menu.items
    exact BList.update_items menu _
  · rfl

theorem menuUpdate_target (menu : BList ViewState) (k : Key) (t : ViewState)
    (hitems : menu.items = [ViewProgList, ViewMapList])
    (ht : (menuUpdate menu k).2 = some t) :
    t = ViewProgList ∨ t = ViewMapList := by
  unfold menuUpdate at ht
  cases k
  case quit => exact absurd ht (by simp)
  case help => exact absurd ht (by simp)
  case back => exact absurd ht (by simp)
  case up => exact absurd ht (by simp)
  case down => exact absurd ht (by simp)
  case search => exact absurd ht (by simp)
  case char c => exact absurd ht (by simp)
  case other => exact absurd ht (by simp)
  have ht2 : (match menu.selectedItem with
      | some t2 => (menu, some t2)
      | none => (menu.update Key.enter, none)).2 = some t := ht
  rcases hsel : menu.selectedItem with _ | t2
  · rw [hsel] at ht2
    exact absurd ht2 (by simp)
  · rw [hsel] at ht2
    simp only [Option.some.injEq] at ht2
    subst ht2
    have hmem : t2 ∈ menu.items :=
      List.get?_mem (show menu.items.get? menu.index = some t2 from hsel)
    rw [hitems] at hmem
    simpa using hmem

/-- Every message-driven transition preserves the navigation invariant. -/
theorem navInv_step (m : Model) (msg : Msg) (h : NavInv m) :
    NavInv (m.update msg).1 := by
  obtain ⟨hiff, hbot, hmenu⟩ := h
  have hinv : NavInv m := ⟨hiff, hbot, hmenu⟩
  cases msg with
  | resize w h2 => exact hinv
  | other => exact hinv
  | key k =>
    show NavInv (m.handleKeyMsg k).1
    unfold Model.handleKeyMsg
    by_cases hq : k = Key.quit ∧ ¬ m.listFiltering
    · rw [if_pos hq]
      exact hinv
    · rw [if_neg hq]
      by_cases hh2 : k = Key.help ∧ ¬ m.listFiltering
      · rw [if_pos hh2]
        exact ⟨hiff, hbot, hmenu⟩
      · rw [if_neg hh2]
        by_cases hsh : m.showHelp = true
        · rw [if_pos hsh]
          exact ⟨hiff, hbot, hmenu⟩
        · rw [if_neg hsh]
          by_cases hb : k = Key.back
          · rw [if_pos hb]
            by_cases hf1 : m.state = ViewProgList ∧ m.progList.IsFiltering = true
            · rw [if_pos hf1]
              unfold Model.handleProgListKeys
              rw [progList_update_filtering m.progList k hf1.2]
              exact ⟨hiff, hbot, hmenu⟩
            · rw [if_neg hf1]
              by_cases hf2 : m.state = ViewMapList ∧ m.mapList.IsFiltering = true
              · rw [if_pos hf2]
                unfold Model.handleMapListKeys
                rw [mapList_update_filtering m.mapList k hf2.2]
                exact ⟨hiff, hbot, hmenu⟩
              · rw [if_neg hf2]
                by_cases hmn : m.state ≠ ViewMenu
                · rw [if_pos hmn]
                  have hne : m.history ≠ [] := fun hh => hmn (hiff.mp hh)
                  obtain ⟨pre, hpre, hnm⟩ := hbot hne
                  rcases hh : m.history with _ | ⟨v, rest⟩
                  · exact absurd hh hne
                  · unfold Model.popState
                    rw [hh]
                    rw [hh] at hpre
                    rcases hpre2 : pre with _ | ⟨p0, ps⟩
                    · rw [hpre2] at hpre
                      simp only [List.nil_append, List.cons.injEq] at hpre
                      refine ⟨?_, ?_, hmenu⟩
                      · rw [hpre.1, hpre.2]
                        simp
                      · rw [hpre.2]
                        intro hc
                        exact absurd rfl hc
                    · rw [hpre2] at hpre hnm
                      simp only [List.cons_append, List.cons.injEq] at hpre
                      simp only [List.mem_cons, not_or] at hnm
                      refine ⟨?_, ?_, hmenu⟩
                      · constructor
                        · intro hc
                          rw [hpre.2] at hc
                          exact absurd hc (by simp)
                        · intro hc
                          rw [hpre.1] at hc
                          exact absurd hc.symm hnm.1
                      · intro _
                        exact ⟨ps, hpre.2, hnm.2⟩
                · rw [if_neg hmn]
                  exact hinv
          · rw [if_neg hb]
            rcases hst : m.state
            · show NavInv (m.handleMenuKeys k).1
              unfold Model.handleMenuKeys
              rcases hu : menuUpdate m.menu k with ⟨menu2, t?⟩
              simp only [hu]
              have hm2 : menu2.items = m.menu.items := by
                have h2 := menuUpdate_items m.menu k
                rw [hu] at h2
                exact h2
              have hinv1 : NavInv ({ m with menu := menu2 } : Model) :=
                ⟨hiff, hbot, hm2.trans hmenu⟩
              rcases t? with _ | t
              · exact hinv1
              · have hor : t = ViewProgList ∨ t = ViewMapList := by
                  refine menuUpdate_target m.menu k t hmenu ?_
                  rw [hu]
                have ht : t ≠ ViewMenu := by
                  rcases hor with rfl | rfl <;> simp
                have hpush : NavInv (({ m with menu := menu2 } : Model).pushState t) :=
                  navInv_push _ hinv1 t ht
                rcases hor with rfl | rfl
                · obtain ⟨h1, h2, h3⟩ :=
                    loadPrograms_nav (({ m with menu := menu2 } : Model).pushState ViewProgList)
                  exact navInv_of_fields h1 h2 h3 hpush
                · obtain ⟨h1, h2, h3⟩ :=
                    loadMaps_nav (({ m with menu := menu2 } : Model).pushState ViewMapList)
                  exact navInv_of_fields h1 h2 h3 hpush
            · show NavInv (m.handleProgListKeys k).1
              unfold Model.handleProgListKeys
              rcases hu : m.progList.Update k with ⟨pl2, sel⟩
              simp only [hu]
              have hinv1 : NavInv ({ m with progList := pl2 } : Model) :=
                ⟨hiff, hbot, hmenu⟩
              rcases sel with _ | prog
              · exact hinv1
              · exact navInv_of_fields rfl rfl rfl
                  (navInv_push _ hinv1 ViewProgDetail (by simp))
            · show NavInv (m.handleProgDetailKeys k).1
              unfold Model.handleProgDetailKeys
              rcases hu : m.progDetail.Update k with ⟨pd2, sel⟩
              simp only [hu]
              have hinv1 : NavInv ({ m with progDetail := pd2 } : Model) :=
                ⟨hiff, hbot, hmenu⟩
              rcases sel with _ | id
              · exact hinv1
              · have hpush : NavInv (({ m with progDetail := pd2 } : Model).pushState
                    ViewMapDetail) :=
                  navInv_push _ hinv1 ViewMapDetail (by simp)
                obtain ⟨h1, h2, h3⟩ :=
                  loadMapByID_nav (({ m with progDetail := pd2 } : Model).pushState
                    ViewMapDetail) id
                exact navInv_of_fields h1 h2 h3 hpush
            · show NavInv (m.handleMapListKeys k).1
              unfold Model.handleMapListKeys
              rcases hu : m.mapList.Update k with ⟨ml2, sel⟩
              simp only [hu]
              have hinv1 : NavInv ({ m with mapList := ml2 } : Model) :=
                ⟨hiff, hbot, hmenu⟩
              rcases sel with _ | info
              · exact hinv1
              · exact navInv_of_fields rfl rfl rfl
                  (navInv_push _ hinv1 ViewMapDetail (by simp))
            · show NavInv (m.handleMapDetailKeys k).1
              unfold Model.handleMapDetailKeys
              rcases hu : m.mapDetail.Update k with ⟨md2, sel⟩
              simp only [hu]
              have hinv1 : NavInv ({ m with mapDetail := md2 } : Model) :=
                ⟨hiff, hbot, hmenu⟩
              rcases sel with _ | _
              · exact hinv1
              · have hpush : NavInv (({ m with mapDetail := md2 } : Model).pushState
                    ViewMapDump) :=
                  navInv_push _ hinv1 ViewMapDump (by simp)
                obtain ⟨h1, h2, h3⟩ :=
                  loadMapDump_nav (({ m with mapDetail := md2 } : Model).pushState
                    ViewMapDump) ((({ m with mapDetail := md2 } : Model).pushState
                      ViewMapDump).mapDetail.GetMapID)
                exact navInv_of_fields h1 h2 h3 hpush
            · show NavInv (m.handleMapDumpKeys k).1
              exact ⟨hiff, hbot, hmenu⟩

/-- C10. In every reachable state the history stack is empty exactly when
the current view is the menu, the menu view identifier occurs only as the
bottommost element of a non-empty stack, and away from the menu the stack
is never empty — so the `popState` empty-stack fallback is never taken
during back navigation. -/
theorem nav_stack_invariant {p : Option ProgService} {q : Option MapsService}
    {m : Model} (h : Reachable p q m) :
    (m.history = [] ↔ m.state = ViewMenu) ∧
    (m.history ≠ [] → ∃ pre, m.history = pre ++ [ViewMenu] ∧ ViewMenu ∉ pre) ∧
    (m.state ≠ ViewMenu → m.history ≠ []) := by
  have hinv : NavInv m := by
    induction h with
    | init =>
        refine ⟨?_, ?_, rfl⟩
        · constructor <;> intro <;> rfl
        · intro hc
          exact absurd rfl hc
    | step msg hr ih => exact navInv_step _ msg ih
  exact ⟨hinv.1, hinv.2.1, fun hs hh => hs (hinv.1.mp hh)⟩

/-- Witness for C10 at the reachable state two confirms deep in the C1
scenario (program detail with a three-deep history). -/
theorem nav_stack_invariant_witness :
    (c1m2.history = [] ↔ c1m2.state = ViewMenu) ∧
    (c1m2.state ≠ ViewMenu → c1m2.history ≠ []) := by
  have hr : Reachable (some c2ProgSvc) (some c1MapsSvc) c1m2 :=
    Reachable.step (Msg.key Key.enter)
      (Reachable.step (Msg.key Key.enter) Reachable.init)
  have h := nav_stack_invariant hr
  exact ⟨h.1, h.2.2⟩

end BpfTui
